import Mathlib

/-!
Verification development for the Spotify song-game round generator
(`src/app.py`).  The definitions below are a shallow embedding of the
round-generation code path (`game`), of the ingestion helper
`fetch_saved_tracks`, and of the timestamp parsing done with Python's
`datetime.strptime`.  Randomness (`random.choice`) is modelled as an
explicit input: each call site of `random.choice` receives its own Nat
index, and the drawn element is the list element at that index modulo the
list length (`pick`); `pick` on an empty list is `none`, matching the
`IndexError` that `random.choice([])` raises.  A Python request that
would raise an uncaught exception is modelled as the value `none`.

Python truthiness conventions used by the source are encoded as follows:
a possibly-missing string field is `Option String` when the code uses it
as a value (`track.get("id")`), and a plain `String` with `""` standing
for "missing or empty" when the code only tests truthiness
(`track.get("name")`), since a missing key and an empty string are both
falsy and are treated identically by the code.  A possibly-missing dict
(`item.get("track")`) is an `Option`.
-/

namespace SpotifyGame

/-! ### Timestamps: `datetime.strptime` with the two formats used by the code

The code parses `added_at` with `"%Y-%m-%dT%H:%M:%SZ"` and, on failure,
with `"%Y-%m-%dT%H:%M:%S.%fZ"` (src/app.py lines 275-279); it parses
`played_at` with `"%Y-%m-%dT%H:%M:%S.%fZ"` only (line 308).  We model
CPython `strptime`: `%Y` is exactly four digits, the other numeric fields
are one or two digits (greedy, each followed by a literal which
disambiguates), `%f` is one to six digits right-padded to microseconds,
the whole string must be consumed, and the `datetime` constructor
validates the field ranges (year 1-9999, real calendar day, hour ≤ 23,
minute ≤ 59, second ≤ 59).  Any failure raises `ValueError`, i.e. `none`.
-/

/-- A parsed `datetime` value (year, month, day, hour, minute, second,
microsecond), as produced by `datetime.strptime`. -/
structure DT where
  year : Nat
  month : Nat
  day : Nat
  hour : Nat
  minute : Nat
  second : Nat
  usec : Nat
deriving DecidableEq, Repr

/-- Order-embedding of a `datetime` into `Nat`: Python compares naive
datetimes field-lexicographically, and on the validated field ranges this
key is strictly monotone in that order. -/
def DT.key (d : DT) : Nat :=
  (((((d.year * 13 + d.month) * 32 + d.day) * 24 + d.hour) * 60 +
      d.minute) * 60 + d.second) * 1000000 + d.usec

def isLeap (y : Nat) : Bool :=
  y % 4 == 0 && (y % 100 != 0 || y % 400 == 0)

def daysInMonth (y m : Nat) : Nat :=
  if m == 2 then (if isLeap y then 29 else 28)
  else if m == 4 || m == 6 || m == 9 || m == 11 then 30
  else 31

/-- The validation done by the `datetime` constructor (together with the
range constraints of the `strptime` field regexes, which reject the same
inputs: both failure modes raise `ValueError`). -/
def mkDT (y mo d h mi s f : Nat) : Option DT :=
  if 1 ≤ y && y ≤ 9999 && 1 ≤ mo && mo ≤ 12 && 1 ≤ d && d ≤ daysInMonth y mo
      && h ≤ 23 && mi ≤ 59 && s ≤ 59 && f ≤ 999999 then
    some ⟨y, mo, d, h, mi, s, f⟩
  else none

def digitVal (c : Char) : Nat := c.toNat - 48

/-- `%Y`: exactly four digits. -/
def p4 : List Char → Option (Nat × List Char)
  | a :: b :: c :: d :: rest =>
    if a.isDigit && b.isDigit && c.isDigit && d.isDigit then
      some (((digitVal a * 10 + digitVal b) * 10 + digitVal c) * 10 + digitVal d, rest)
    else none
  | _ => none

/-- One or two digits, taken greedily.  In the two formats every such
field is followed by a non-digit literal, so greedy matching agrees with
the backtracking regex `strptime` uses. -/
def p12 : List Char → Option (Nat × List Char)
  | [] => none
  | [a] => if a.isDigit then some (digitVal a, []) else none
  | a :: b :: rest =>
    if a.isDigit then
      if b.isDigit then some (digitVal a * 10 + digitVal b, rest)
      else some (digitVal a, b :: rest)
    else none

/-- A literal character of the format string. -/
def lit (c : Char) : List Char → Option (List Char)
  | x :: rest => if x == c then some rest else none
  | [] => none

/-- `%f`: one to six digits, right-padded to microseconds. -/
def pFrac (cs : List Char) : Option (Nat × List Char) :=
  let digs := (cs.take 6).takeWhile (fun c => c.isDigit)
  if digs.isEmpty then none
  else
    some (digs.foldl (fun a c => a * 10 + digitVal c) 0 * 10 ^ (6 - digs.length),
      cs.drop digs.length)

/-- The shared prefix `"%Y-%m-%dT%H:%M:%S"` of both formats. -/
def parseTimePrefix (cs : List Char) :
    Option (Nat × Nat × Nat × Nat × Nat × Nat × List Char) :=
  (p4 cs).bind fun yc =>
  (lit '-' yc.2).bind fun cs2 =>
  (p12 cs2).bind fun moc =>
  (lit '-' moc.2).bind fun cs4 =>
  (p12 cs4).bind fun dc =>
  (lit 'T' dc.2).bind fun cs6 =>
  (p12 cs6).bind fun hc =>
  (lit ':' hc.2).bind fun cs8 =>
  (p12 cs8).bind fun mic =>
  (lit ':' mic.2).bind fun cs10 =>
  (p12 cs10).bind fun sc =>
  some (yc.1, moc.1, dc.1, hc.1, mic.1, sc.1, sc.2)

/-- `datetime.strptime(s, "%Y-%m-%dT%H:%M:%SZ")`, `none` on `ValueError`. -/
def parseNoFrac (s : String) : Option DT :=
  (parseTimePrefix s.data).bind fun r =>
  match r with
  | (y, mo, d, h, mi, sec, rest) =>
    (lit 'Z' rest).bind fun rest2 =>
    if rest2.isEmpty then mkDT y mo d h mi sec 0 else none

/-- `datetime.strptime(s, "%Y-%m-%dT%H:%M:%S.%fZ")`, `none` on `ValueError`. -/
def parseWithFrac (s : String) : Option DT :=
  (parseTimePrefix s.data).bind fun r =>
  match r with
  | (y, mo, d, h, mi, sec, rest) =>
    (lit '.' rest).bind fun rest1 =>
    (pFrac rest1).bind fun fc =>
    (lit 'Z' fc.2).bind fun rest3 =>
    if rest3.isEmpty then mkDT y mo d h mi sec fc.1 else none

/-- Parsing of `added_at` (src/app.py lines 273-280): try the format
without fractional seconds, and on `ValueError` the one with them. -/
def parseAddedAt (s : String) : Option DT :=
  match parseNoFrac s with
  | some d => some d
  | none => parseWithFrac s

/-- Parsing of `played_at` (src/app.py line 308): only the fractional
format is attempted. -/
def parsePlayedAt (s : String) : Option DT :=
  parseWithFrac s

end SpotifyGame

namespace SpotifyGame

/-! ### Data model -/

/-- A Spotify track dict as the code reads it: `get("id")` is used as a
value (`Option String`); `get("name")` and `get("artists")` are only
tested for truthiness, so `""` and `[]` stand for missing-or-empty.
`artists` holds the artist names (`artists[i]["name"]`). -/
structure Track where
  id : Option String
  name : String
  artists : List String
deriving DecidableEq, Repr

/-- An item of a player's `timeline` (a recently-played object:
`track` and `played_at`). -/
structure PlayItem where
  track : Option Track
  played_at : String
deriving DecidableEq, Repr

/-- An item of a player's `saved_tracks` (a SavedTrackObject:
`track` and `added_at`). -/
structure SavedItem where
  track : Option Track
  added_at : String
deriving DecidableEq, Repr

/-- One value of the `players` dict. -/
structure Player where
  display_name : String
  timeline : List PlayItem
  saved_tracks : List SavedItem
deriving DecidableEq, Repr

/-- The `players` dict, in insertion order.  Python dict keys are unique;
theorems that need this carry a `Nodup` hypothesis on the keys. -/
abbrev Store := List (String × Player)

/-- Truthiness of `track.get("id")`: present and a non-empty string. -/
def truthyOpt : Option String → Bool
  | none => false
  | some s => s != ""

/-- `players[pid]` (dict lookup); `none` models a `KeyError`. -/
def dictGet (players : Store) (pid : String) : Option Player :=
  (players.find? (fun p => p.1 == pid)).map Prod.snd

/-- `random.choice(l)` with the random draw `r` given as input: the
element at index `r % l.length`.  On `[]` it is `none`, matching the
`IndexError` `random.choice` raises on an empty sequence; for a non-empty
list, as `r` ranges uniformly over any span of `l.length` consecutive
naturals, each element is drawn with equal probability. -/
def pick (l : List α) (r : Nat) : Option α := l[r % l.length]?

/-- One Nat per `random.choice` call site in `/game`. -/
structure Rand where
  rSavedPlayer : Nat
  rSavedItem : Nat
  rRecentPlayer : Nat
  rRecentItem : Nat
  rGlobal : Nat
deriving Repr

/-- The payload handed to `render_template("game.html", ...)`. -/
structure RoundResult where
  question_text : String
  song_name : String
  artist_name : String
  track_id : Option String
  options : List String
  answer : String
  question_type : String
deriving DecidableEq, Repr

/-- An element of `combined_recent` (src/app.py lines 309-316). -/
structure CEntry where
  track_name : String
  artist_name : String
  player_id : String
  played_ts : DT
  track_id : Option String
  full_track : Track
deriving DecidableEq, Repr

/-! ### The `/game` route (src/app.py lines 209-379) -/

/-- `options = [pdata["display_name"] for pdata in players.values()]`. -/
def optionsOf (players : Store) : List String :=
  players.map (fun p => p.2.display_name)

/-- `[pid for pid, pdata in players.items() if pdata.get("saved_tracks")]`
(line 231). -/
def playersWithSavedTracks (players : Store) : List String :=
  (players.filter (fun p => !p.2.saved_tracks.isEmpty)).map Prod.fst

/-- `[pid for pid, pdata in players.items() if pdata.get("timeline")]`
(line 324). -/
def playersWithRecentHistory (players : Store) : List String :=
  (players.filter (fun p => !p.2.timeline.isEmpty)).map Prod.fst

/-- `combined_recent` (lines 302-318): every timeline item with a track
that has a truthy name and artist list and a `played_at` that parses
with the fractional-seconds format. -/
def combinedRecent (players : Store) : List CEntry :=
  players.flatMap (fun p =>
    p.2.timeline.filterMap (fun item =>
      match item.track with
      | none => none
      | some tr =>
        if tr.name != "" && !tr.artists.isEmpty && item.played_at != "" then
          match parsePlayedAt item.played_at with
          | some ts =>
            some ⟨tr.name, tr.artists.headD "", p.1, ts, tr.id, tr⟩
          | none => none
        else none))

/-- `savers_with_timestamp` (lines 266-282): every saved item whose track
id equals the chosen `track_id` and whose `added_at` is present and
parses (either format), paired with the owner's display name. -/
def collectSavers (players : Store) (track_id : Option String) :
    List (DT × String) :=
  players.flatMap (fun p =>
    p.2.saved_tracks.filterMap (fun item =>
      match item.track with
      | none => none
      | some tr =>
        if tr.id == track_id then
          if item.added_at != "" then
            match parseAddedAt item.added_at with
            | some ts => some (ts, p.2.display_name)
            | none => none
          else none
        else none))

/-- Python `max(l, key=k)`: fold keeping the current maximum, replacing
it only on a strictly greater key, so the first maximal element wins. -/
def pyMaxAux (key : α → Nat) (cur : α) : List α → α
  | [] => cur
  | y :: ys => pyMaxAux key (if key y > key cur then y else cur) ys

/-- Python `max(l, key=k)`; `none` models the `ValueError` on an empty
sequence (the code always guards the call with a non-emptiness test). -/
def pyMax (key : α → Nat) : List α → Option α
  | [] => none
  | x :: xs => some (pyMaxAux key x xs)

/-- `plays_of_this_chosen_song` (lines 355-357). -/
def playsOfChosenSong (combined : List CEntry) (track_id : Option String) :
    List CEntry :=
  combined.filter (fun play => play.track_id == track_id)

/-- The explicit "no data" render (lines 346-347). -/
def errorRender (opts : List String) : RoundResult :=
  ⟨"Error: No game data available to ask a question.", "", "", none, opts,
    "", "error"⟩

/-- Lines 323-334: the fair two-stage pick — a uniformly random player
among those with a non-empty timeline, then a uniformly random item of
that player's timeline, validated only for track, name and artists (not
for `played_at`).  Outer `none` is an uncaught exception; `some none`
means `selected_recent_track_obj` stayed `None`. -/
def fairRecentPick (players : Store) (r : Rand) : Option (Option Track) :=
  if (playersWithRecentHistory players).isEmpty then some none
  else
    match pick (playersWithRecentHistory players) r.rRecentPlayer with
    | none => none
    | some pid =>
      match dictGet players pid with
      | none => none
      | some pdata =>
        if pdata.timeline.isEmpty then some none
        else
          match pick pdata.timeline r.rRecentItem with
          | none => none
          | some item =>
            match item.track with
            | none => some none
            | some tr =>
              if tr.name != "" && !tr.artists.isEmpty then some (some tr)
              else some none

/-- Lines 321-341: pick `selected_recent_track_obj`: the fair pick, then
the global fallback pick from `combined_recent`. -/
def selectRecentTrack (players : Store) (combined : List CEntry)
    (r : Rand) : Option (Option Track) :=
  match fairRecentPick players r with
  | none => none
  | some (some tr) => some (some tr)
  | some none =>
    if combined.isEmpty then some none
    else
      match pick combined r.rGlobal with
      | none => none
      | some play => some (some play.full_track)

/-- Lines 349-368: given the selected track, resolve the answer from
`combined_recent` and build the render payload. -/
def renderRecent (players : Store) (opts : List String)
    (combined : List CEntry) (tr : Track) : Option RoundResult :=
  match tr.artists with
  | [] => none
  | a0 :: _ =>
    match playsOfChosenSong combined tr.id with
    | [] =>
      some ⟨"Who has most recently listened to:", tr.name, a0, tr.id, opts,
        "N/A (Data consistency issue)", "recent_listener"⟩
    | p0 :: ps =>
      match pyMax (fun play => play.played_ts.key) (p0 :: ps) with
      | none => none
      | some best =>
        match dictGet players best.player_id with
        | none => none
        | some owner =>
          some ⟨"Who has most recently listened to:", tr.name, a0, tr.id,
            opts, owner.display_name, "recent_listener"⟩

/-- The whole "recent listener" branch (lines 297-368). -/
def recentBranch (players : Store) (opts : List String) (r : Rand) :
    Option RoundResult :=
  let combined := combinedRecent players
  match selectRecentTrack players combined r with
  | none => none
  | some none => some (errorRender opts)
  | some (some tr) => renderRecent players opts combined tr

/-- The "saved track" attempt (lines 227-293).  `some none` means the
attempt fell back (`attempt_saved_track_question = False`); `some (some
res)` is a completed saved-track round; outer `none` is an uncaught
exception. -/
def savedAttempt (players : Store) (r : Rand) : Option (Option RoundResult) :=
  if (playersWithSavedTracks players).isEmpty then some none
  else
    match pick (playersWithSavedTracks players) r.rSavedPlayer with
    | none => none
    | some pid =>
      match dictGet players pid with
      | none => none
      | some pdata =>
        if pdata.saved_tracks.isEmpty then some none
        else
          match pick pdata.saved_tracks r.rSavedItem with
          | none => none
          | some item =>
            match item.track with
            | none => some none
            | some tr =>
              if truthyOpt tr.id && tr.name != "" && !tr.artists.isEmpty
                  && item.added_at != "" then
                match tr.artists with
                | [] => none
                | a0 :: _ =>
                  match collectSavers players tr.id with
                  | [] => some none
                  | s0 :: ss =>
                    match pyMax (fun x => x.1.key) (s0 :: ss) with
                    | none => none
                    | some best =>
                      some (some ⟨"Who most recently added this song to their saved tracks?",
                        tr.name, a0, tr.id, optionsOf players, best.2,
                        "saved_track"⟩)
              else some none

/-- The `/game` route: `qn` is the incremented `session["question_number"]`;
an even `qn` attempts the saved-track question first (line 225), and any
failure of that attempt falls through to the recent-listener branch. -/
def game (players : Store) (qn : Nat) (r : Rand) : Option RoundResult :=
  if qn % 2 == 0 then
    match savedAttempt players r with
    | none => none
    | some none => recentBranch players (optionsOf players) r
    | some (some res) => some res
  else recentBranch players (optionsOf players) r

/-! ### `fetch_saved_tracks` (src/app.py lines 94-131) -/

/-- The per-item validation at ingestion (lines 115-117): the item has a
track with a truthy id, name and artist list, and a truthy `added_at`. -/
def validSavedItem (item : SavedItem) : Bool :=
  match item.track with
  | none => false
  | some tr =>
    truthyOpt tr.id && tr.name != "" && !tr.artists.isEmpty
      && item.added_at != ""

/-- The `for item in items` loop (lines 113-120): append the valid items,
stopping as soon as the accumulator reaches `limit`. -/
def savedPageLoop (limit : Nat) : List SavedItem → List SavedItem → List SavedItem
  | [], acc => acc
  | item :: rest, acc =>
    if validSavedItem item then
      let acc2 := acc ++ [item]
      if limit ≤ acc2.length then acc2 else savedPageLoop limit rest acc2
    else savedPageLoop limit rest acc

/-- The `while True` pagination loop (lines 100-127).  The provider
(`sp.current_user_saved_tracks`) is an arbitrary function from the
requested page size and offset to a list of items; `fuel` bounds the
number of iterations (the Python loop can spin forever against a
provider that keeps answering full pages of invalid items, and any
finite prefix of that run is some fuel value). -/
def fetchLoop (provider : Nat → Nat → List SavedItem) (limit : Nat) :
    Nat → List SavedItem → Nat → List SavedItem
  | 0, acc, _ => acc
  | fuel + 1, acc, offset =>
    let num := if limit < acc.length + 50 then limit - acc.length else 50
    if num == 0 then acc
    else
      let items := provider num offset
      if items.isEmpty then acc
      else
        let acc2 := savedPageLoop limit items acc
        if limit ≤ acc2.length then acc2
        else if items.length < 50 then acc2
        else fetchLoop provider limit fuel acc2 (offset + items.length)

/-- `fetch_saved_tracks(sp, limit)` with the paging collaborator made
explicit. -/
def fetch_saved_tracks (provider : Nat → Nat → List SavedItem)
    (limit : Nat) (fuel : Nat) : List SavedItem :=
  fetchLoop provider limit fuel [] 0

/-- Eligibility of a timeline entry exactly as the code's own
`combined_recent` filter (lines 306-308) decides it: a track with a
truthy name and artist list and a `played_at` the code can parse. -/
def playEligible (item : PlayItem) : Bool :=
  match item.track with
  | none => false
  | some tr =>
    tr.name != "" && !tr.artists.isEmpty && (parsePlayedAt item.played_at).isSome

/-! ### Concrete populations used as test inputs and counterexamples -/

/-- A fixed random source (all draws take index 0). -/
def rand0 : Rand := ⟨0, 0, 0, 0, 0⟩

/-- A fully valid saved track. -/
def savedOnlyTrack : Track := ⟨some "id1", "SavedSong", ["ArtistS"]⟩

def savedOnlyItem : SavedItem := ⟨some savedOnlyTrack, "2024-01-01T00:00:00Z"⟩

/-- One participant who has a valid saved track but no listening
timeline at all. -/
def savedOnlyStore : Store := [("p1", ⟨"Alice", [], [savedOnlyItem]⟩)]

/-- A play event whose `played_at` lacks fractional seconds. -/
def noFracItem : PlayItem := ⟨some ⟨some "t3", "Song3", ["A3"]⟩, "2024-03-05T10:20:30Z"⟩

def noFracStore : Store := [("p1", ⟨"Bob", [noFracItem], []⟩)]

/-- Two participants with id-less tracks of different songs. -/
def idlessStore : Store :=
  [("p1", ⟨"PlayerA", [⟨some ⟨none, "X", ["A"]⟩, "2024-01-02T00:00:00.000Z"⟩], []⟩),
   ("p2", ⟨"PlayerB", [⟨some ⟨none, "Y", ["B"]⟩, "2024-01-03T00:00:00.000Z"⟩], []⟩)]

/-- A play event with a complete track but no `played_at` at all. -/
def noStampItem : PlayItem := ⟨some ⟨some "t5", "S", ["A"]⟩, ""⟩

def noStampStore : Store := [("p1", ⟨"Carol", [noStampItem], []⟩)]

/-- A participant whose whole timeline is ineligible (no track dict). -/
def ineligibleOnlyPlayer : Player :=
  ⟨"B", [⟨none, "2024-01-01T00:00:00.000Z"⟩], []⟩

/-- One participant with an eligible play plus one whose entries are all
ineligible. -/
def mixedStore : Store :=
  [("a", ⟨"A", [⟨some ⟨some "ta", "GoodSong", ["GA"]⟩, "2024-01-01T00:00:00.000Z"⟩], []⟩),
   ("b", ineligibleOnlyPlayer)]

/-- Saved items for the `fetch_saved_tracks` demonstration: one valid,
one with a missing artist list. -/
def demoValidSaved : SavedItem := ⟨some ⟨some "s1", "N1", ["A1"]⟩, "2024-01-01T00:00:00Z"⟩

def demoInvalidSaved : SavedItem := ⟨some ⟨some "s2", "N2", []⟩, "2024-01-01T00:00:00Z"⟩

/-- A provider answering one page with a partially invalid entry. -/
def demoProvider : Nat → Nat → List SavedItem := fun _ offset =>
  if offset == 0 then [demoValidSaved, demoInvalidSaved, demoValidSaved] else []

/-- A qualifying set with a tie on the maximal timestamp. -/
def demoSavers : List (DT × String) :=
  [(⟨2024, 1, 1, 0, 0, 0, 0⟩, "A"), (⟨2024, 1, 2, 0, 0, 0, 0⟩, "B"),
   (⟨2024, 1, 2, 0, 0, 0, 0⟩, "C")]

/-- The key function the saved-track resolver hands to `max`. -/
def saverKey (x : DT × String) : Nat := x.1.key

/-- The round the saved-track strategy produces on `savedOnlyStore`. -/
def savedOnlyExpected : RoundResult :=
  ⟨"Who most recently added this song to their saved tracks?", "SavedSong",
    "ArtistS", some "id1", ["Alice"], "Alice", "saved_track"⟩

/-- The `combined_recent` entry of `idlessStore`'s first play. -/
def idlessEntryX : CEntry :=
  ⟨"X", "A", "p1", ⟨2024, 1, 2, 0, 0, 0, 0⟩, none, ⟨none, "X", ["A"]⟩⟩

/-- Concrete fixtures for the degenerate single-participant rounds. -/
def witPlayTrack : Track := ⟨some "wid", "WSong", ["WArtist"]⟩

def witPlayItem : PlayItem := ⟨some witPlayTrack, "2024-05-01T10:00:00.000Z"⟩

def witSavedTrack : Track := ⟨some "sid", "WSaved", ["SArtist"]⟩

def witSavedItem : SavedItem := ⟨some witSavedTrack, "2024-05-02T10:00:00Z"⟩

end SpotifyGame

namespace SpotifyGame

/-! ### Helper lemmas -/

/-- `random.choice` on a non-empty list always yields an element of it. -/
theorem pick_isSome {α : Type} {l : List α} (h : l ≠ []) (r : Nat) :
    ∃ a, pick l r = some a ∧ a ∈ l := by
  have hlen : 0 < l.length := List.length_pos.mpr h
  have hm : r % l.length < l.length := Nat.mod_lt _ hlen
  have hget : l[r % l.length]? = some l[r % l.length] := List.getElem?_eq_getElem hm
  exact ⟨l[r % l.length], hget, List.getElem?_mem hget⟩

/-- A key that occurs in the dict can be looked up. -/
theorem dictGet_isSome {players : Store} {pid : String}
    (h : pid ∈ players.map Prod.fst) :
    ∃ pdata, dictGet players pid = some pdata := by
  rcases List.mem_map.mp h with ⟨pr, hpr, rfl⟩
  have hs : (players.find? (fun p => p.1 == pr.1)).isSome := by
    rw [List.find?_isSome]
    exact ⟨pr, hpr, by simp⟩
  rcases Option.isSome_iff_exists.mp hs with ⟨q, hq⟩
  exact ⟨q.2, by unfold dictGet; rw [hq]; rfl⟩

theorem mem_keys_of_mem_pws {players : Store} {pid : String}
    (h : pid ∈ playersWithSavedTracks players) : pid ∈ players.map Prod.fst := by
  unfold playersWithSavedTracks at h
  rcases List.mem_map.mp h with ⟨pr, hpr, rfl⟩
  exact List.mem_map.mpr ⟨pr, (List.mem_filter.mp hpr).1, rfl⟩

theorem mem_keys_of_mem_pwrh {players : Store} {pid : String}
    (h : pid ∈ playersWithRecentHistory players) : pid ∈ players.map Prod.fst := by
  unfold playersWithRecentHistory at h
  rcases List.mem_map.mp h with ⟨pr, hpr, rfl⟩
  exact List.mem_map.mpr ⟨pr, (List.mem_filter.mp hpr).1, rfl⟩

/-- The Python `max` fold agrees with Mathlib's `List.argmax`. -/
theorem pyMaxAux_eq_foldl {α : Type} (key : α → Nat) :
    ∀ (l : List α) (cur : α),
      some (pyMaxAux key cur l) =
        l.foldl (List.argAux fun b c => key c < key b) (some cur)
  | [], _ => rfl
  | y :: ys, cur => by
    have ih := pyMaxAux_eq_foldl key ys (if key y > key cur then y else cur)
    simp only [pyMaxAux, List.foldl_cons, List.argAux]
    rw [ih]
    congr 1
    by_cases h : key cur < key y
    · simp [h, gt_iff_lt]
    · simp [h, gt_iff_lt]

theorem pyMax_eq_argmax {α : Type} (key : α → Nat) (l : List α) :
    pyMax key l = l.argmax key := by
  cases l with
  | nil => rfl
  | cons x xs =>
    show some (pyMaxAux key x xs) = (x :: xs).foldl (List.argAux fun b c => key c < key b) none
    rw [List.foldl_cons]
    exact pyMaxAux_eq_foldl key xs x

/-- Python `max` of a non-empty list: the first element attaining the
maximal key. -/
theorem pyMax_first_max {α : Type} [DecidableEq α] (key : α → Nat)
    {l : List α} (h : l ≠ []) :
    ∃ m, pyMax key l = some m ∧ m ∈ l ∧ (∀ a ∈ l, key a ≤ key m) ∧
      (∀ a ∈ l, key m ≤ key a → l.indexOf m ≤ l.indexOf a) := by
  have hn : l.argmax key ≠ none := by
    rw [Ne, List.argmax_eq_none]; exact h
  rcases Option.ne_none_iff_exists.mp hn with ⟨m, hm⟩
  have hmem : m ∈ l.argmax key := by rw [← hm]; rfl
  refine ⟨m, ?_, List.argmax_mem hmem, ?_, ?_⟩
  · rw [pyMax_eq_argmax, ← hm]
  · exact fun a ha => List.le_of_mem_argmax ha hmem
  · exact fun a ha hle => List.index_of_argmax hmem ha hle

end SpotifyGame

namespace SpotifyGame

/-- If the recent-listener selection stage reports that no track could be
selected, then `combined_recent` was empty (the global fallback pool had
nothing to offer). -/
theorem selectRecentTrack_none {players : Store} {combined : List CEntry}
    {r : Rand} (h : selectRecentTrack players combined r = some none) :
    combined = [] := by
  unfold selectRecentTrack at h
  cases hf : fairRecentPick players r with
  | none => rw [hf] at h; exact absurd h (by simp)
  | some o =>
    cases o with
    | some tr => rw [hf] at h; exact absurd h (by simp)
    | none =>
      rw [hf] at h
      by_cases hc : combined.isEmpty
      · exact List.isEmpty_iff.mp hc
      · rw [if_neg hc] at h
        cases hp : pick combined r.rGlobal with
        | none => rw [hp] at h; exact absurd h (by simp)
        | some play => rw [hp] at h; exact absurd h (by simp)

/-- Every completed render of the recent-listener resolver carries
`question_type = "recent_listener"`. -/
theorem renderRecent_type {players : Store} {opts : List String}
    {combined : List CEntry} {tr : Track} {res : RoundResult}
    (h : renderRecent players opts combined tr = some res) :
    res.question_type = "recent_listener" := by
  unfold renderRecent at h
  split at h
  · exact absurd h (by simp)
  · split at h
    · cases h; rfl
    · split at h
      · exact absurd h (by simp)
      · split at h
        · exact absurd h (by simp)
        · cases h; rfl

/-- A completed recent-listener round is either a question or the
explicit no-data outcome, and the latter occurs only with an empty
`combined_recent`. -/
theorem recentBranch_type {players : Store} {opts : List String} {r : Rand}
    {res : RoundResult} (h : recentBranch players opts r = some res) :
    res.question_type = "recent_listener" ∨
      (res.question_type = "error" ∧ combinedRecent players = []) := by
  unfold recentBranch at h
  simp only [] at h
  cases hsel : selectRecentTrack players (combinedRecent players) r with
  | none => rw [hsel] at h; exact absurd h (by simp)
  | some o =>
    cases o with
    | none =>
      rw [hsel] at h
      exact Or.inr ⟨by cases h; rfl, selectRecentTrack_none hsel⟩
    | some tr =>
      rw [hsel] at h
      exact Or.inl (renderRecent_type h)

/-- The saved-track attempt never raises: it either falls back or
completes with a saved-track question whose answer was resolved from a
non-empty qualifying set by the Python `max`. -/
theorem savedAttempt_spec (players : Store) (r : Rand) :
    savedAttempt players r = some none ∨
    ∃ res, savedAttempt players r = some (some res) ∧
      res.question_type = "saved_track" ∧
      ∃ best, res.track_id ≠ none ∧
        collectSavers players res.track_id ≠ [] ∧
        pyMax (fun x => x.1.key) (collectSavers players res.track_id) = some best ∧
        res.answer = best.2 := by
  unfold savedAttempt
  by_cases h0 : (playersWithSavedTracks players).isEmpty
  · rw [if_pos h0]; exact Or.inl rfl
  · rw [if_neg h0]
    have hne : playersWithSavedTracks players ≠ [] := by
      simpa [List.isEmpty_iff] using h0
    obtain ⟨pid, hpick, hmem⟩ := pick_isSome hne r.rSavedPlayer
    rw [hpick]
    dsimp only
    obtain ⟨pdata, hget⟩ := dictGet_isSome (mem_keys_of_mem_pws hmem)
    rw [hget]
    dsimp only
    by_cases h1 : pdata.saved_tracks.isEmpty
    · rw [if_pos h1]; exact Or.inl rfl
    · rw [if_neg h1]
      have hne2 : pdata.saved_tracks ≠ [] := by
        simpa [List.isEmpty_iff] using h1
      obtain ⟨item, hpick2, _⟩ := pick_isSome hne2 r.rSavedItem
      rw [hpick2]
      dsimp only
      cases hit : item.track with
      | none => exact Or.inl rfl
      | some tr =>
        dsimp only
        by_cases hv : (truthyOpt tr.id && tr.name != "" && !tr.artists.isEmpty
            && item.added_at != "") = true
        · rw [if_pos hv]
          have hart : tr.artists ≠ [] := by
            have h2 : (!tr.artists.isEmpty) = true := by
              simp only [Bool.and_eq_true] at hv
              exact hv.1.2
            simp only [Bool.not_eq_true'] at h2
            simpa [List.isEmpty_iff] using h2
          have hid : tr.id ≠ none := by
            have h3 : truthyOpt tr.id = true := by
              simp only [Bool.and_eq_true] at hv
              exact hv.1.1.1
            cases hidc : tr.id with
            | none => rw [hidc] at h3; exact absurd h3 (by simp [truthyOpt])
            | some s => simp
          cases hart2 : tr.artists with
          | nil => exact absurd hart2 hart
          | cons a0 rest =>
            dsimp only
            cases hsav : collectSavers players tr.id with
            | nil => exact Or.inl rfl
            | cons s0 ss =>
              dsimp only
              refine Or.inr ⟨_, rfl, rfl, pyMaxAux (fun x => x.1.key) s0 ss,
                hid, ?_, ?_, rfl⟩
              · show collectSavers players tr.id ≠ []
                rw [hsav]; exact List.cons_ne_nil s0 ss
              · show pyMax (fun x => x.1.key) (collectSavers players tr.id) = _
                rw [hsav]; rfl
        · rw [if_neg hv]; exact Or.inl rfl

/-- The inner validation loop of `fetch_saved_tracks` keeps the length
bound and appends only validated items. -/
theorem savedPageLoop_spec (limit : Nat) :
    ∀ (items acc : List SavedItem), acc.length < limit →
      (∀ x ∈ acc, validSavedItem x = true) →
      (savedPageLoop limit items acc).length ≤ limit ∧
      ∀ x ∈ savedPageLoop limit items acc, validSavedItem x = true := by
  intro items
  induction items with
  | nil => intro acc h1 h2; exact ⟨Nat.le_of_lt h1, h2⟩
  | cons item rest ih =>
    intro acc h1 h2
    have hmem : ∀ x ∈ acc ++ [item], validSavedItem item = true →
        validSavedItem x = true := by
      intro x hx hv
      rcases List.mem_append.mp hx with h | h
      · exact h2 x h
      · rw [List.mem_singleton] at h; subst h; exact hv
    unfold savedPageLoop
    by_cases hv : validSavedItem item = true
    · rw [if_pos hv]
      simp only []
      by_cases hlim : limit ≤ (acc ++ [item]).length
      · rw [if_pos hlim]
        constructor
        · have hl : (acc ++ [item]).length = acc.length + 1 := by simp
          omega
        · exact fun x hx => hmem x hx hv
      · rw [if_neg hlim]
        apply ih
        · have hl : (acc ++ [item]).length = acc.length + 1 := by simp
          omega
        · exact fun x hx => hmem x hx hv
    · rw [if_neg hv]
      exact ih acc h1 h2

/-- The pagination loop of `fetch_saved_tracks` keeps the length bound
and the per-item validation, for every provider behaviour. -/
theorem fetchLoop_spec (provider : Nat → Nat → List SavedItem) (limit : Nat) :
    ∀ (fuel : Nat) (acc : List SavedItem) (offset : Nat),
      acc.length ≤ limit → (∀ x ∈ acc, validSavedItem x = true) →
      (fetchLoop provider limit fuel acc offset).length ≤ limit ∧
      ∀ x ∈ fetchLoop provider limit fuel acc offset, validSavedItem x = true := by
  intro fuel
  induction fuel with
  | zero => intro acc offset h1 h2; exact ⟨h1, h2⟩
  | succ fuel ih =>
    intro acc offset h1 h2
    unfold fetchLoop
    simp only []
    by_cases h0 : ((if limit < acc.length + 50 then limit - acc.length else 50) == 0) = true
    · rw [if_pos h0]; exact ⟨h1, h2⟩
    · rw [if_neg h0]
      have hlt : acc.length < limit := by
        by_cases hc : limit < acc.length + 50
        · rw [if_pos hc] at h0
          have hne : limit - acc.length ≠ 0 := by simpa using h0
          omega
        · omega
      by_cases hempty : ((provider (if limit < acc.length + 50 then limit - acc.length else 50) offset).isEmpty) = true
      · rw [if_pos hempty]; exact ⟨h1, h2⟩
      · rw [if_neg hempty]
        obtain ⟨hl, hv⟩ := savedPageLoop_spec limit
          (provider (if limit < acc.length + 50 then limit - acc.length else 50) offset) acc hlt h2
        by_cases hlim : limit ≤ (savedPageLoop limit
            (provider (if limit < acc.length + 50 then limit - acc.length else 50) offset) acc).length
        · rw [if_pos hlim]; exact ⟨hl, hv⟩
        · rw [if_neg hlim]
          by_cases hlen : (provider (if limit < acc.length + 50 then limit - acc.length else 50) offset).length < 50
          · rw [if_pos hlen]; exact ⟨hl, hv⟩
          · rw [if_neg hlen]
            exact ih _ _ hl hv

end SpotifyGame

namespace SpotifyGame

/-! ### Claim theorems -/

/-- C1 (counterexample): on `savedOnlyStore` the only participant has a
fully valid saved track (so the SavedTrack strategy succeeds, as round 2
shows) and no recent-listen data; yet round 1, whose preferred strategy
is RecentListener, ends in the `"error"` no-data outcome instead of
falling back to the SavedTrack strategy — the claimed
RecentListener → SavedTrack fallback does not exist in the code. -/
theorem c1_counterexample :
    playersWithSavedTracks savedOnlyStore = ["p1"] ∧
    game savedOnlyStore 2 rand0 = some savedOnlyExpected ∧
    savedOnlyExpected.question_type = "saved_track" ∧
    game savedOnlyStore 1 rand0 = some (errorRender ["Alice"]) := by
  exact ⟨rfl, by decide, rfl, by decide⟩

/-- C1 (amended): the fallback chain is one-directional.  An odd round
(preferred strategy RecentListener) is computed entirely by the
recent-listener branch and never attempts the SavedTrack strategy; an
even round either completes as a saved-track question or — on any
failure of the saved-track attempt — equals the recent-listener branch;
and the no-data `"error"` outcome occurs only when `combined_recent` is
empty, i.e. when no eligible recent-play entry exists at all. -/
theorem c1_fallback_one_directional (players : Store) (qn : Nat) (r : Rand) :
    (qn % 2 ≠ 0 → game players qn r = recentBranch players (optionsOf players) r) ∧
    (qn % 2 = 0 →
      (∃ res, game players qn r = some res ∧ res.question_type = "saved_track") ∨
      game players qn r = recentBranch players (optionsOf players) r) ∧
    (∀ res, game players qn r = some res → res.question_type = "error" →
      combinedRecent players = []) := by
  refine ⟨?_, ?_, ?_⟩
  · intro hq
    have hb : (qn % 2 == 0) = false := by simp [hq]
    simp [game, hb]
  · intro hq
    have hb : (qn % 2 == 0) = true := by simp [hq]
    rcases savedAttempt_spec players r with hsa | ⟨res, hsa, hty, _⟩
    · exact Or.inr (by simp [game, hb, hsa])
    · exact Or.inl ⟨res, by simp [game, hb, hsa], hty⟩
  · intro res hg herr
    by_cases hq : qn % 2 = 0
    · have hb : (qn % 2 == 0) = true := by simp [hq]
      rcases savedAttempt_spec players r with hsa | ⟨res2, hsa, hty, _⟩
      · rw [game, hb] at hg
        simp only [if_true, hsa] at hg
        rcases recentBranch_type hg with h | ⟨_, h⟩
        · rw [h] at herr; exact absurd herr (by decide)
        · exact h
      · rw [game, hb] at hg
        simp only [if_true, hsa] at hg
        cases hg
        rw [hty] at herr; exact absurd herr (by decide)
    · have hb : (qn % 2 == 0) = false := by simp [hq]
      rw [game, hb] at hg
      simp only [Bool.false_eq_true, if_false] at hg
      rcases recentBranch_type hg with h | ⟨_, h⟩
      · rw [h] at herr; exact absurd herr (by decide)
      · exact h

/-- C1 (witness): the amended theorem applied to round 1 on
`savedOnlyStore`. -/
theorem c1_fallback_one_directional_witness :
    game savedOnlyStore 1 rand0 =
      recentBranch savedOnlyStore (optionsOf savedOnlyStore) rand0 :=
  (c1_fallback_one_directional savedOnlyStore 1 rand0).1 (by decide)

/-- C2 (counterexample): in `mixedStore` the participant `"b"` has a
timeline but not a single eligible entry, yet `"b"` is in the
first-stage selection pool — the pool is the participants with a
non-empty timeline, not those with an eligible entry, refuting the
claimed characterisation of the first-stage set. -/
theorem c2_counterexample :
    playersWithRecentHistory mixedStore = ["a", "b"] ∧
    List.filter playEligible ineligibleOnlyPlayer.timeline = [] := by
  exact ⟨by decide, by decide⟩

/-- C2 (amended): the first-stage draw of either strategy is uniform
(via `pick`) over the participants whose relevant list is merely
non-empty — eligible or not; under unique dict keys that pool lists each
such participant exactly once, so each gets equal weight regardless of
how many entries it contributes; entry validation happens only after
the second-stage draw. -/
theorem c2_first_stage_pools (players : Store)
    (hnd : (players.map Prod.fst).Nodup) :
    (playersWithRecentHistory players).Nodup ∧
    (playersWithSavedTracks players).Nodup ∧
    (∀ pid, pid ∈ playersWithRecentHistory players ↔
      ∃ pdata, (pid, pdata) ∈ players ∧ pdata.timeline ≠ []) ∧
    (∀ pid, pid ∈ playersWithSavedTracks players ↔
      ∃ pdata, (pid, pdata) ∈ players ∧ pdata.saved_tracks ≠ []) := by
  refine ⟨?_, ?_, ?_, ?_⟩
  · exact ((List.filter_sublist players).map Prod.fst).nodup hnd
  · exact ((List.filter_sublist players).map Prod.fst).nodup hnd
  · intro pid
    unfold playersWithRecentHistory
    constructor
    · intro hm
      rcases List.mem_map.mp hm with ⟨pr, hpr, rfl⟩
      rcases List.mem_filter.mp hpr with ⟨hmem, hne⟩
      refine ⟨pr.2, by simpa using hmem, ?_⟩
      simpa [List.isEmpty_iff] using hne
    · rintro ⟨pdata, hmem, hne⟩
      exact List.mem_map.mpr ⟨(pid, pdata),
        List.mem_filter.mpr ⟨hmem, by simpa [List.isEmpty_iff] using hne⟩, rfl⟩
  · intro pid
    unfold playersWithSavedTracks
    constructor
    · intro hm
      rcases List.mem_map.mp hm with ⟨pr, hpr, rfl⟩
      rcases List.mem_filter.mp hpr with ⟨hmem, hne⟩
      refine ⟨pr.2, by simpa using hmem, ?_⟩
      simpa [List.isEmpty_iff] using hne
    · rintro ⟨pdata, hmem, hne⟩
      exact List.mem_map.mpr ⟨(pid, pdata),
        List.mem_filter.mpr ⟨hmem, by simpa [List.isEmpty_iff] using hne⟩, rfl⟩

/-- C2 (witness): the amended theorem applied to `mixedStore`. -/
theorem c2_first_stage_pools_witness :
    (playersWithRecentHistory mixedStore).Nodup :=
  (c2_first_stage_pools mixedStore (by decide)).1

/-- C3 (code bug): the two supported formats parse `added_at` to the
same instant, but `played_at` is parsed with the fractional format only,
so a `played_at` without fractional seconds is dropped: `noFracStore`'s
single, otherwise fully valid play never enters `combined_recent`, and
the round built from it renders the unresolved-answer marker. -/
theorem c3_played_at_single_format :
    parseAddedAt "2024-03-05T10:20:30Z" = some ⟨2024, 3, 5, 10, 20, 30, 0⟩ ∧
    parseAddedAt "2024-03-05T10:20:30.000Z" = some ⟨2024, 3, 5, 10, 20, 30, 0⟩ ∧
    parsePlayedAt "2024-03-05T10:20:30.000Z" = some ⟨2024, 3, 5, 10, 20, 30, 0⟩ ∧
    parsePlayedAt "2024-03-05T10:20:30Z" = none ∧
    combinedRecent noFracStore = [] ∧
    game noFracStore 1 rand0 = some ⟨"Who has most recently listened to:",
      "Song3", "A3", some "t3", ["Bob"], "N/A (Data consistency issue)",
      "recent_listener"⟩ := by
  exact ⟨by decide, by decide, by decide, by decide, by decide, by decide⟩

/-- C4 (counterexample): with the id-less chosen song `"X"` by `"A"`,
the qualifying set contains the unrelated id-less play `"Y"` by `"B"`
(both id-less entries match), and the rendered answer is even determined
by that unrelated play — refuting the claimed name+artist fallback key
for id-less songs. -/
theorem c4_counterexample :
    (playsOfChosenSong (combinedRecent idlessStore) none).map CEntry.track_name
      = ["X", "Y"] ∧
    game idlessStore 1 rand0 = some ⟨"Who has most recently listened to:",
      "X", "A", none, ["PlayerA", "PlayerB"], "PlayerB", "recent_listener"⟩ := by
  exact ⟨by decide, by decide⟩

/-- C4 (amended): an event qualifies for the chosen song exactly when
its `track_id` equals the chosen song's `track_id` under Python `==` —
including `None == None` — with no name/artist fallback, so an id-less
chosen song matches exactly the id-less events of the pool, whatever
their names and artists. -/
theorem c4_matching_by_track_id (combined : List CEntry)
    (tid : Option String) (ce : CEntry) :
    ce ∈ playsOfChosenSong combined tid ↔ ce ∈ combined ∧ ce.track_id = tid := by
  unfold playsOfChosenSong
  rw [List.mem_filter]
  constructor
  · rintro ⟨ha, hb⟩; exact ⟨ha, by simpa using hb⟩
  · rintro ⟨ha, hb⟩; exact ⟨ha, by simpa using hb⟩

/-- C4 (witness): the amended theorem applied to `idlessStore`'s pool. -/
theorem c4_matching_by_track_id_witness :
    idlessEntryX ∈ playsOfChosenSong (combinedRecent idlessStore) none ↔
      idlessEntryX ∈ combinedRecent idlessStore ∧ idlessEntryX.track_id = none :=
  c4_matching_by_track_id (combinedRecent idlessStore) none idlessEntryX

/-- C5 (code bug): `noStampItem` has no timestamp at all, hence is not
an eligible entry, yet the recent-listener fair-selection stage (which
validates only track, name and artists) chooses it as the question
song, and the round renders with the unresolved marker. -/
theorem c5_missing_timestamp_selected :
    playEligible noStampItem = false ∧
    game noStampStore 1 rand0 = some ⟨"Who has most recently listened to:",
      "S", "A", some "t5", ["Carol"], "N/A (Data consistency issue)",
      "recent_listener"⟩ := by
  exact ⟨by decide, by decide⟩

/-- C6: round generation on an empty store terminates with the explicit
no-data render (`question_type = "error"`) for every round number and
every random source, and never with the exception value `none`. -/
theorem c6_empty_store (qn : Nat) (r : Rand) :
    game [] qn r = some (errorRender []) := by
  unfold game
  split <;> rfl

/-- C6 (witness): a concrete round on the empty store. -/
theorem c6_empty_store_witness : game [] 5 rand0 = some (errorRender []) :=
  c6_empty_store 5 rand0

end SpotifyGame

namespace SpotifyGame

/-- C7: for a store holding exactly one participant whose history of the
kind used by the round's strategy is a single eligible entry, the
generated round's question song (name, artist, id) equals that entry's
song and the answer equals the participant's display name — for the
recent-listener strategy (odd round) and the saved-track strategy (even
round) alike, whatever the random source. -/
theorem c7_single_participant_single_entry (pid dn : String) (qn : Nat) (r : Rand)
    (item : PlayItem) (tr : Track) (a0 : String) (arts : List String) (dt : DT)
    (sitem : SavedItem) (trS : Track) (b0 : String) (brts : List String) (sdt : DT)
    (st : List SavedItem) (tl : List PlayItem)
    (h1 : item.track = some tr) (h2 : (tr.name != "") = true)
    (h3 : tr.artists = a0 :: arts)
    (h4 : parsePlayedAt item.played_at = some dt)
    (h5 : sitem.track = some trS) (h6 : truthyOpt trS.id = true)
    (h7 : (trS.name != "") = true) (h8 : trS.artists = b0 :: brts)
    (h9 : parseAddedAt sitem.added_at = some sdt) :
    (qn % 2 = 1 → game [(pid, ⟨dn, [item], st⟩)] qn r =
      some ⟨"Who has most recently listened to:", tr.name, a0, tr.id, [dn],
        dn, "recent_listener"⟩) ∧
    (qn % 2 = 0 → game [(pid, ⟨dn, tl, [sitem]⟩)] qn r =
      some ⟨"Who most recently added this song to their saved tracks?",
        trS.name, b0, trS.id, [dn], dn, "saved_track"⟩) := by
  have hpa : (item.played_at != "") = true := by
    cases h5x : item.played_at != "" with
    | true => rfl
    | false =>
      exfalso
      have hx : item.played_at = "" := by simpa using h5x
      rw [hx] at h4
      exact Option.noConfusion h4
  have haa : (sitem.added_at != "") = true := by
    cases h5x : sitem.added_at != "" with
    | true => rfl
    | false =>
      exfalso
      have hx : sitem.added_at = "" := by simpa using h5x
      rw [hx] at h9
      exact Option.noConfusion h9
  have h2p : tr.name ≠ "" := by simpa using h2
  have hpap : item.played_at ≠ "" := by simpa using hpa
  have h7p : trS.name ≠ "" := by simpa using h7
  have haap : sitem.added_at ≠ "" := by simpa using haa
  constructor
  · intro hq
    have hb : (qn % 2 == 0) = false := by simp [hq]
    have hcomb : combinedRecent [(pid, ⟨dn, [item], st⟩)] =
        [⟨tr.name, a0, pid, dt, tr.id, tr⟩] := by
      simp [combinedRecent, h1, h2p, h3, hpap, h4]
    have hfair : fairRecentPick [(pid, ⟨dn, [item], st⟩)] r = some (some tr) := by
      simp [fairRecentPick, playersWithRecentHistory, pick, Nat.mod_one,
        dictGet, h1, h2p, h3]
    have hsel : selectRecentTrack [(pid, ⟨dn, [item], st⟩)]
        (combinedRecent [(pid, ⟨dn, [item], st⟩)]) r = some (some tr) := by
      unfold selectRecentTrack
      rw [hfair]
    have hdict : dictGet [(pid, ⟨dn, [item], st⟩)] pid =
        some ⟨dn, [item], st⟩ := by simp [dictGet]
    have hplay : playsOfChosenSong [⟨tr.name, a0, pid, dt, tr.id, tr⟩] tr.id =
        [⟨tr.name, a0, pid, dt, tr.id, tr⟩] := by
      simp [playsOfChosenSong]
    simp only [game, hb, Bool.false_eq_true, if_false]
    unfold recentBranch
    simp only []
    rw [hsel]
    dsimp only
    rw [hcomb]
    unfold renderRecent
    rw [h3]
    dsimp only
    rw [hplay]
    dsimp only [pyMax, pyMaxAux]
    rw [hdict]
    simp [optionsOf]
  · intro hq
    have hb : (qn % 2 == 0) = true := by simp [hq]
    have hsav : collectSavers [(pid, ⟨dn, tl, [sitem]⟩)] trS.id =
        [(sdt, dn)] := by
      simp [collectSavers, List.filterMap_cons, h5, h9, haap]
    have hatt : savedAttempt [(pid, ⟨dn, tl, [sitem]⟩)] r =
        some (some ⟨"Who most recently added this song to their saved tracks?",
          trS.name, b0, trS.id, [dn], dn, "saved_track"⟩) := by
      unfold savedAttempt
      simp only [playersWithSavedTracks]
      simp only [List.filter_cons]
      simp only [List.isEmpty_cons, Bool.not_false]
      simp [pick, Nat.mod_one, dictGet, h5, h6, h7, h8, haa, hsav, pyMax,
        pyMaxAux, optionsOf]
    simp only [game, hb, if_true, hatt]

/-- C7 (witness): concrete single-participant stores for both parities. -/
theorem c7_single_participant_single_entry_witness :
    game [("p", ⟨"D", [witPlayItem], []⟩)] 1 rand0 =
      some ⟨"Who has most recently listened to:", "WSong", "WArtist",
        some "wid", ["D"], "D", "recent_listener"⟩ ∧
    game [("p", ⟨"D", [], [witSavedItem]⟩)] 2 rand0 =
      some ⟨"Who most recently added this song to their saved tracks?",
        "WSaved", "SArtist", some "sid", ["D"], "D", "saved_track"⟩ := by
  have ha := c7_single_participant_single_entry "p" "D" 1 rand0
    witPlayItem witPlayTrack "WArtist" [] ⟨2024, 5, 1, 10, 0, 0, 0⟩
    witSavedItem witSavedTrack "SArtist" [] ⟨2024, 5, 2, 10, 0, 0, 0⟩
    [] [] rfl (by decide) rfl (by decide) rfl (by decide) (by decide) rfl
    (by decide)
  have hb := c7_single_participant_single_entry "p" "D" 2 rand0
    witPlayItem witPlayTrack "WArtist" [] ⟨2024, 5, 1, 10, 0, 0, 0⟩
    witSavedItem witSavedTrack "SArtist" [] ⟨2024, 5, 2, 10, 0, 0, 0⟩
    [] [] rfl (by decide) rfl (by decide) rfl (by decide) (by decide) rfl
    (by decide)
  exact ⟨ha.1 rfl, hb.2 rfl⟩

/-- C8: the resolver's `max` is a pure function of the qualifying list,
and it returns exactly the first element attaining the maximal key —
the deterministic tie-break rule: among entries sharing the maximal
timestamp, the one at the least index in the given iteration order
wins. -/
theorem c8_resolver_first_max {α : Type} [DecidableEq α] (key : α → Nat)
    (l : List α) (h : l ≠ []) :
    pyMax key l = pyMax key l ∧
    ∃ m, pyMax key l = some m ∧ m ∈ l ∧ (∀ a ∈ l, key a ≤ key m) ∧
      (∀ a ∈ l, key m ≤ key a → l.indexOf m ≤ l.indexOf a) :=
  ⟨rfl, pyMax_first_max key h⟩

/-- C8 (witness): the resolver on a qualifying set with a timestamp tie. -/
theorem c8_resolver_first_max_witness :
    (pyMax saverKey demoSavers).isSome = true := by
  obtain ⟨_, m, h1, _⟩ := c8_resolver_first_max saverKey demoSavers (by decide)
  rw [h1]; rfl

/-- C9: `fetch_saved_tracks` returns at most `limit` entries for every
provider behaviour and page budget, and every returned entry passed the
ingestion validation (a track with an id, a name, a non-empty artist
list, and an `added_at`). -/
theorem c9_fetch_saved_tracks_bounded_valid
    (provider : Nat → Nat → List SavedItem) (limit fuel : Nat) :
    (fetch_saved_tracks provider limit fuel).length ≤ limit ∧
    ∀ x ∈ fetch_saved_tracks provider limit fuel, validSavedItem x = true :=
  fetchLoop_spec provider limit fuel [] 0 (by simp) (by simp)

/-- C9 (witness): a concrete provider with a partially invalid page. -/
theorem c9_fetch_saved_tracks_bounded_valid_witness :
    (fetch_saved_tracks demoProvider 2 5).length ≤ 2 :=
  (c9_fetch_saved_tracks_bounded_valid demoProvider 2 5).1

/-- C10: every rendered round whose `question_type` is `"saved_track"`
has an answer resolved from a non-empty qualifying set of save events:
the answer is the display name attached to the save event the resolver
selected, that event belongs to the qualifying set of the question's
`track_id`, and its parsed `added_at` is maximal in that set — never a
leftover `"N/A"` marker, since every saved-track failure switches the
round to the recent-listener strategy before rendering. -/
theorem c10_saved_track_answer_resolved (players : Store) (qn : Nat)
    (r : Rand) (res : RoundResult) (hg : game players qn r = some res)
    (ht : res.question_type = "saved_track") :
    ∃ best, res.track_id ≠ none ∧
      collectSavers players res.track_id ≠ [] ∧
      pyMax (fun x => x.1.key) (collectSavers players res.track_id) = some best ∧
      res.answer = best.2 ∧
      best ∈ collectSavers players res.track_id ∧
      ∀ x ∈ collectSavers players res.track_id, x.1.key ≤ best.1.key := by
  have hnotrb : ∀ (h2 : recentBranch players (optionsOf players) r = some res),
      False := by
    intro h2
    rcases recentBranch_type h2 with h | ⟨h, _⟩
    · rw [h] at ht; exact absurd ht (by decide)
    · rw [h] at ht; exact absurd ht (by decide)
  by_cases hq : qn % 2 = 0
  · have hb : (qn % 2 == 0) = true := by simp [hq]
    rcases savedAttempt_spec players r with hsa | ⟨res2, hsa, hty, best, hid, hne, hmax, hans⟩
    · rw [game, hb] at hg
      simp only [if_true, hsa] at hg
      exact absurd hg hnotrb
    · rw [game, hb] at hg
      simp only [if_true, hsa] at hg
      cases hg
      have h2 := hmax
      rw [pyMax_eq_argmax] at h2
      have hmem2 : best ∈ List.argmax (fun x : DT × String => x.1.key)
          (collectSavers players res.track_id) := Option.mem_def.mpr h2
      refine ⟨best, hid, hne, hmax, hans, List.argmax_mem hmem2, ?_⟩
      intro x hx
      have h3 := List.le_of_mem_argmax hx hmem2
      exact h3
  · have hb : (qn % 2 == 0) = false := by simp [hq]
    rw [game, hb] at hg
    simp only [Bool.false_eq_true, if_false] at hg
    exact absurd hg hnotrb

/-- C10 (witness): the saved-track round on `savedOnlyStore` has a
non-empty qualifying set for its question song. -/
theorem c10_saved_track_answer_resolved_witness :
    collectSavers savedOnlyStore (some "id1") ≠ [] := by
  obtain ⟨best, hid, hne, _⟩ := c10_saved_track_answer_resolved
    savedOnlyStore 2 rand0 savedOnlyExpected (by decide) rfl
  exact hne

end SpotifyGame
